import Mathlib

/-!
Shallow embedding of `src/src/satell_extensions.cpp` — the Satell C++
extension module for the Lua-derived Satell runtime — together with the
small part of the runtime interface the module relies on, and proofs
about the exported functions `cpp_hello`, `cpp_version` and `split`
(`cpp_split`), the helper class `StringUtils`, and the module entry point
`luaopen_satell_cpp`.
-/

namespace Satell

/-- Byte strings: a C or Lua string is a finite sequence of bytes,
represented here as characters. -/
abbrev Str := List Char

/-- NUL terminator byte. -/
def nul : Char := Char.ofNat 0

/-- Reading from a C string through a `const char*` at index `i`: for
`i < length` the stored byte, for `i = length` the NUL terminator.  For
`i > length` the C read would be out of bounds, with no defined value;
this model returns 0 there, but every theorem below whose conclusion
depends on a delimiter byte restricts the delimiter to be nonempty, so
only reads at defined positions (stored bytes or the terminator) are
relied upon. -/
def cAt (s : Str) (i : Nat) : Char := s.getD i nul

/-- Conversion of a `const char*` to a length-carrying string
(`std::string_view` or `std::string` constructed from a pointer): the
bytes strictly before the first NUL. -/
def truncAtNul (s : Str) : Str := s.takeWhile (fun ch => ch != nul)

namespace StringUtils

/-- In the split loop, `str.find(delimiter, start)` with `npos` collapsed
to `str.size()` as the loop body does: the first index at or after `start`
holding the delimiter, or the length when there is none. -/
def findFrom (s : Str) (c : Char) (start : Nat) : Nat :=
  start + ((s.drop start).takeWhile (fun ch => ch != c)).length

/-- Loop of `StringUtils::split`: `while (start < str.size())` find the
next delimiter position (or the end), push `substr(start, end - start)`,
and continue at `end + 1`. -/
def splitLoop (s : Str) (c : Char) (start : Nat) : List Str :=
  if h : start < s.length then
    (s.drop start).take (findFrom s c start - start) ::
      splitLoop s c (findFrom s c start + 1)
  else
    []
termination_by s.length - start
decreasing_by
  simp only [findFrom]
  omega

/-- `StringUtils::split(str, delimiter)`: run the loop from `start = 0`. -/
def split (s : Str) (c : Char) : List Str := splitLoop s c 0

/-- Structural reformulation of the split loop, used to reason about
`split` by ordinary list induction.  `splitLoop` is proved equal to it
in `split_eq` below. -/
def splitAux (c : Char) : Str → List Str
  | [] => []
  | x :: xs =>
    if x = c then
      [] :: splitAux c xs
    else
      match splitAux c xs with
      | [] => [[x]]
      | f :: fs => (x :: f) :: fs

theorem take_length_takeWhile (p : Char → Bool) :
    ∀ l : Str, l.take ((l.takeWhile p).length) = l.takeWhile p := by
  intro l
  induction l with
  | nil => rfl
  | cons x xs ih =>
    by_cases h : p x
    · simp [List.takeWhile_cons, h, ih]
    · simp [List.takeWhile_cons, h]

theorem splitAux_unfold (c : Char) (l : Str) (h : l ≠ []) :
    splitAux c l = l.takeWhile (fun ch => ch != c) ::
      splitAux c (l.drop ((l.takeWhile (fun ch => ch != c)).length + 1)) := by
  induction l with
  | nil => exact absurd rfl h
  | cons x xs ih =>
    by_cases hx : x = c
    · subst hx
      simp [splitAux, List.takeWhile_cons]
    · rcases hxs : xs with _ | ⟨y, ys⟩
      · subst hxs
        simp [splitAux, hx, List.takeWhile_cons]
      · rw [← hxs]
        have hne : xs ≠ [] := by rw [hxs]; exact List.cons_ne_nil _ _
        have h2 := ih hne
        simp [splitAux, hx, h2, List.takeWhile_cons]

theorem splitLoop_eq_aux (c : Char) (s : Str) :
    ∀ (n start : Nat), s.length - start ≤ n →
      splitLoop s c start = splitAux c (s.drop start) := by
  intro n
  induction n with
  | zero =>
    intro start h
    have hle : s.length ≤ start := by omega
    rw [splitLoop, dif_neg (by omega)]
    rw [List.drop_eq_nil_of_le hle]
    rfl
  | succ n ih =>
    intro start h
    by_cases hlt : start < s.length
    · rw [splitLoop, dif_pos hlt]
      have hne : s.drop start ≠ [] := by
        intro hcon
        have := congrArg List.length hcon
        simp [List.length_drop] at this
        omega
      rw [splitAux_unfold c _ hne]
      have hW : findFrom s c start - start =
          ((s.drop start).takeWhile (fun ch => ch != c)).length := by
        simp [findFrom]
      have hdrop : s.drop (findFrom s c start + 1) =
          (s.drop start).drop
            (((s.drop start).takeWhile (fun ch => ch != c)).length + 1) := by
        rw [List.drop_drop]
        have harg : start + (((s.drop start).takeWhile
            (fun ch => ch != c)).length + 1) = findFrom s c start + 1 := by
          simp only [findFrom]
          omega
        rw [harg]
      have hrec := ih (findFrom s c start + 1)
        (by simp only [findFrom]; omega)
      rw [hW, take_length_takeWhile, hrec, hdrop]
    · rw [splitLoop, dif_neg hlt, List.drop_eq_nil_of_le (by omega)]
      rfl

theorem split_eq (s : Str) (c : Char) : split s c = splitAux c s := by
  have := splitLoop_eq_aux c s s.length 0 (by omega)
  simpa [split] using this

theorem splitAux_append (c : Char) :
    ∀ (t : Str), t ≠ [] → t.getLast? ≠ some c →
      splitAux c (t ++ [c]) = splitAux c t := by
  intro t
  induction t with
  | nil => intro h; exact absurd rfl h
  | cons x xs ih =>
    intro _ hlast
    rcases hxs : xs with _ | ⟨y, ys⟩
    · subst hxs
      have hx : x ≠ c := by
        simpa [List.getLast?] using hlast
      simp [splitAux, hx]
    · rw [← hxs]
      have hne : xs ≠ [] := by rw [hxs]; exact List.cons_ne_nil _ _
      have hlast2 : xs.getLast? ≠ some c := by
        rw [hxs] at hlast ⊢
        simpa [List.getLast?_cons_cons] using hlast
      have h2 := ih hne hlast2
      by_cases hx : x = c
      · subst hx
        simp [splitAux, h2]
      · have h3 : splitAux c (xs.append [c]) = splitAux c xs := h2
        simp only [List.cons_append, splitAux, hx, if_false, h3]

end StringUtils

/-- Modelled from the spec (§3, Tagged Value; the runtime's value
representation lives in the Lua core of this repository, which is not
under src/): a discriminated union over the runtime's value kinds.  The
table payload is its array part, which is all the bridge code under src/
ever creates (cpp_split stores only strings at indices 1..n); the
function, foreign-handle and thread payloads are opaque identifiers. -/
inductive TaggedValue where
  | nil
  | boolean (b : Bool)
  | integer (n : Int)
  | float (bits : Nat)
  | str (s : Str)
  | table (arr : List Str)
  | func (id : Nat)
  | foreignHandle (id : Nat)
  | thread (id : Nat)
deriving DecidableEq

/-- Modelled from the spec (§3/§7): the kind tag of a tagged value. -/
inductive Tag where
  | nil
  | boolean
  | integer
  | float
  | str
  | table
  | func
  | foreignHandle
  | thread
deriving DecidableEq

/-- Modelled from the spec (§3): the tag stored with a tagged value. -/
def tagOf : TaggedValue → Tag
  | .nil => .nil
  | .boolean _ => .boolean
  | .integer _ => .integer
  | .float _ => .float
  | .str _ => .str
  | .table _ => .table
  | .func _ => .func
  | .foreignHandle _ => .foreignHandle
  | .thread _ => .thread

/-- Modelled from the spec (§7, error taxonomy; the runtime's error
machinery lives in the Lua core, not under src/): `typeMismatch i` is the
bad-argument error luaL_checkstring raises for argument `i` when the slot
holds a value of another kind (or no value); `runtimeError msg` is the
error luaL_error raises with a formatted message; `arityError` is the
spec's `ArityError{expected=[min,max], actual}` — no code path in src/
produces it. -/
inductive LuaError where
  | typeMismatch (argIndex : Nat)
  | arityError (minExpected maxExpected actual : Nat)
  | runtimeError (msg : Str)
deriving DecidableEq

/-- Modelled from the spec (§4.1, Value Marshaller; luaL_checkstring is in
lauxlib.c of this repository, not under src/): reading argument `i` with
expected kind string returns the stored byte string when the slot's tag is
string, and fails with the TypeMismatch-style bad-argument error when the
tag differs or the slot is absent; per the spec it never silently
coerces. -/
def checkstring (args : List TaggedValue) (i : Nat) : Except LuaError Str :=
  match args[i - 1]? with
  | some (.str s) => .ok s
  | _ => .error (.typeMismatch i)

/-- Modelled from the spec (§4.1): push appends a tagged value at the top
of the value stack. -/
def pushValue (stack : List TaggedValue) (v : TaggedValue) :
    List TaggedValue := stack ++ [v]

/-- Greeting prefix used by cpp_hello. -/
def helloPrefix : Str := "Hello from C++23, ".toList

/-- satell.cpp_hello(name) -> string: check the string argument, build
"Hello from C++23, " + name + "!" (the std::string built from the
`const char*` holds the bytes before the first NUL), push it, return 1.
The result is the list of pushed results paired with the C return
count. -/
def cpp_hello (args : List TaggedValue) :
    Except LuaError (List TaggedValue × Nat) :=
  match checkstring args 1 with
  | .error e => .error e
  | .ok name =>
    .ok ([.str (helloPrefix ++ truncAtNul name ++ "!".toList)], 1)

/-- satell.cpp_version() -> string: push a version string showing the
compiler's __cplusplus value (a compile-time constant, taken here as a
parameter), return 1. -/
def cpp_version (cplusplus : Nat) :
    Except LuaError (List TaggedValue × Nat) :=
  .ok ([.str ("Satell C++ Extensions v1.0 (C++".toList
    ++ (Nat.repr cplusplus).toList ++ ")".toList)], 1)

/-- Message of the luaL_error raised by cpp_split's delimiter check. -/
def splitErrMsg : Str := "delimiter must be a single character".toList

/-- satell.split(string, delimiter) -> table: check both string arguments;
if delim[1] != '\0' raise "delimiter must be a single character" through
luaL_error; otherwise split the text (viewed through its `const char*`,
hence truncated at the first NUL) on the delimiter's first byte, build a
table holding part i at index i+1 for i = 0..n-1 (lua_createtable plus
lua_pushlstring/lua_rawseti, which leave only the table on the stack),
and return 1. -/
def cpp_split (args : List TaggedValue) :
    Except LuaError (List TaggedValue × Nat) :=
  match checkstring args 1 with
  | .error e => .error e
  | .ok s =>
    match checkstring args 2 with
    | .error e => .error e
    | .ok delim =>
      if cAt delim 1 ≠ nul then
        .error (.runtimeError splitErrMsg)
      else
        .ok ([.table (StringUtils.split (truncAtNul s) (cAt delim 0))], 1)

/-- Identifiers for the three native functions registered by the
module. -/
inductive NativeFn where
  | helloFn
  | versionFn
  | splitFn
deriving DecidableEq

/-- The luaL_Reg array satell_cpplib: the listed (name, function)
bindings, without the terminating {nullptr, nullptr} sentinel. -/
def satell_cpplib : List (Str × NativeFn) :=
  [("cpp_hello".toList, .helloFn),
   ("cpp_version".toList, .versionFn),
   ("split".toList, .splitFn)]

/-- Modelled from the spec (§4.5 and §6; luaL_newlib/luaL_setfuncs are in
lauxlib of this repository, not under src/): create a fresh table and set
each listed binding into it in order, overwriting an existing entry with
the same name and appending a new entry otherwise. -/
def newlib (reg : List (Str × NativeFn)) : List (Str × NativeFn) :=
  reg.foldl
    (fun t p =>
      if t.any (fun q => q.1 = p.1) then
        t.map (fun q => if q.1 = p.1 then p else q)
      else
        t ++ [p])
    []

/-- luaopen_satell_cpp: build the export table from satell_cpplib with
luaL_newlib and return it (the C function returns 1 with the table on the
stack). -/
def luaopen_satell_cpp : List (Str × NativeFn) := newlib satell_cpplib

/-- Loading the module once more: the module loader invokes the entry
point, which appends a freshly built export table to the list of tables
produced so far; nothing already produced is touched. -/
def loadModule (registry : List (List (Str × NativeFn))) :
    List (List (Str × NativeFn)) :=
  registry ++ [luaopen_satell_cpp]

/-- C++ exceptions that the extension code can encounter. -/
inductive CppExc where
  | badAlloc
deriving DecidableEq

/-- Outcome of a native call as seen from the runtime boundary: a normal
return (results plus C return count), an error raised through the
runtime's unwind primitive (luaL_error / luaL_checkstring), or a C++
exception escaping the extern "C" boundary uncaught. -/
inductive CallOutcome where
  | ok (results : List TaggedValue) (nresults : Nat)
  | luaError (e : LuaError)
  | uncaughtCpp (e : CppExc)
deriving DecidableEq

/-- std::string construction and concatenation under an allocation
oracle: when allocation succeeds the concatenation is produced, otherwise
std::bad_alloc is thrown. -/
def concatAlloc (alloc : Bool) (a b : Str) : Except CppExc Str :=
  if alloc then .ok (a ++ b) else .error .badAlloc

/-- StringUtils::safe_concat(a, b): evaluate the concatenation inside
`try`, catch `std::bad_alloc` and return `std::nullopt` for it.  The
arguments are string_views, so no NUL truncation is involved.  A result
of `.error` would mean an exception escaping safe_concat itself. -/
def safe_concat (alloc : Bool) (a b : Str) : Except CppExc (Option Str) :=
  match concatAlloc alloc a b with
  | .ok s => .ok (some s)
  | .error .badAlloc => .ok none

/-- cpp_hello with the C++ exception flow made explicit: the greeting is
built with allocating std::string operations ("Hello from C++23, " +
std::string(name) + "!") and the body contains no try/catch, so a
std::bad_alloc thrown there escapes the extern "C" boundary uncaught
(contrast the repository's own guidance and safe_concat above, which
catches it). -/
def cpp_hello_exc (alloc : Bool) (args : List TaggedValue) : CallOutcome :=
  match checkstring args 1 with
  | .error e => .luaError e
  | .ok name =>
    match concatAlloc alloc (helloPrefix ++ truncAtNul name) "!".toList with
    | .error exc => .uncaughtCpp exc
    | .ok greeting => .ok [.str greeting] 1

/-- Decidable equality of call results, used to evaluate the model on
concrete inputs. -/
instance {ε α : Type} [DecidableEq ε] [DecidableEq α] :
    DecidableEq (Except ε α) := fun x y =>
  match x, y with
  | .ok a, .ok b =>
    if h : a = b then .isTrue (by rw [h])
    else .isFalse (fun hc => h (Except.ok.inj hc))
  | .error a, .error b =>
    if h : a = b then .isTrue (by rw [h])
    else .isFalse (fun hc => h (Except.error.inj hc))
  | .ok _, .error _ => .isFalse (fun hc => Except.noConfusion hc)
  | .error _, .ok _ => .isFalse (fun hc => Except.noConfusion hc)

theorem cpp_split_eval (text delim : Str) (h : cAt delim 1 = nul) :
    cpp_split [.str text, .str delim] =
      .ok ([.table (StringUtils.split (truncAtNul text) (cAt delim 0))], 1) := by
  simp [cpp_split, checkstring, h]

/-- C1: calling the exported split with text "a,b,,c" and delimiter ","
returns a single table whose array part is exactly the four strings "a",
"b", "", "c" at indices 1 through 4, in that order, with no further
entries, and the call returns result count 1. -/
theorem cpp_split_basic_example :
    cpp_split [.str "a,b,,c".toList, .str ",".toList] =
      .ok ([.table ["a".toList, "b".toList, [], "c".toList]], 1) := by
  rw [cpp_split_eval _ _ (by decide)]
  simp only [StringUtils.split_eq]
  decide

/-- C2 counterexample: the delimiter ",NUL," has length 3, strictly more
than one character, yet the exported split accepts it and returns a
result table, because the validation only inspects the byte at index
1. -/
theorem cpp_split_long_delimiter_accepted :
    ([',', nul, ','] : Str).length = 3 ∧
    cpp_split [.str "a,b".toList, .str [',', nul, ',']] =
      .ok ([.table ["a".toList, "b".toList]], 1) := by
  constructor
  · rfl
  · rw [cpp_split_eval _ _ (by decide)]
    simp only [StringUtils.split_eq]
    decide

/-- C2 (amended): for a nonempty delimiter, a call to the exported split
with two string arguments fails with the "delimiter must be a single
character" validation error exactly when the delimiter's byte at index 1
(its second byte when its length is at least 2, or the NUL terminator
when its length is exactly 1) is nonzero; the error is produced by the
check at the top of cpp_split, before any splitting.  For the empty
delimiter the source's delim[1] read is out of bounds and nothing is
asserted. -/
theorem cpp_split_validation_iff_second_byte (text delim : Str)
    (_hne : delim ≠ []) :
    cpp_split [.str text, .str delim] =
      .error (.runtimeError splitErrMsg) ↔ cAt delim 1 ≠ nul := by
  by_cases h : cAt delim 1 = nul
  · rw [cpp_split_eval text delim h]
    simp [h]
  · simp [cpp_split, checkstring, h]

/-- C2 witness: for the nonempty delimiter "ab" the equivalence holds at
a concrete input: the second byte 'b' is nonzero, so the call fails with
the validation error. -/
theorem cpp_split_validation_iff_second_byte_witness :
    ("ab".toList : Str) ≠ [] ∧
    (cpp_split [.str "x".toList, .str "ab".toList] =
      .error (.runtimeError splitErrMsg) ↔ cAt "ab".toList 1 ≠ nul) :=
  ⟨by decide,
   cpp_split_validation_iff_second_byte "x".toList "ab".toList (by decide)⟩

/-- C9: the delimiter validation of the exported split inspects only the
byte at index 1, not the delimiter's length: for every nonempty
delimiter whose byte at index 1 (a stored byte when its length is at
least 2, the NUL terminator when its length is exactly 1) is NUL —
including a multi-byte delimiter with an embedded NUL as its second
byte — no validation error is raised and the text is split using only
the delimiter's first byte. -/
theorem cpp_split_checks_only_second_byte (text delim : Str)
    (_hne : delim ≠ []) (h : cAt delim 1 = nul) :
    cpp_split [.str text, .str delim] =
      .ok ([.table (StringUtils.split (truncAtNul text) (cAt delim 0))], 1) :=
  cpp_split_eval text delim h

/-- C9 witness: with delimiter ",NUL," (nonempty: length 3, second byte
an embedded NUL) and text "x,y" the hypotheses hold, no error is raised,
and the text is split on the first byte ','. -/
theorem cpp_split_checks_only_second_byte_witness :
    ([',', nul, ','] : Str) ≠ [] ∧
    cAt [',', nul, ','] 1 = nul ∧
    cpp_split [.str "x,y".toList, .str [',', nul, ',']] =
      .ok ([.table (StringUtils.split (truncAtNul "x,y".toList)
        (cAt [',', nul, ','] 0))], 1) :=
  ⟨by decide, by decide,
   cpp_split_checks_only_second_byte "x,y".toList [',', nul, ',']
     (by decide) (by decide)⟩

/-- C4 counterexample: invoking the exported split with the single
argument "a" does not fail with ArityError{expected=[2,2], actual=1}:
the native body runs, argument 1 is read successfully, and the failure
is the bad-argument/TypeMismatch error for argument 2 raised by
luaL_checkstring inside the body. -/
theorem cpp_split_one_argument_not_arity_error :
    cpp_split [.str "a".toList] = .error (.typeMismatch 2) ∧
    (Except.error (LuaError.typeMismatch 2) :
        Except LuaError (List TaggedValue × Nat)) ≠
      .error (.arityError 2 2 1) :=
  ⟨rfl, by decide⟩

/-- C4 (amended): invoking the exported split with only one argument
fails with the bad-argument/TypeMismatch error for argument 2, raised by
the luaL_checkstring call inside the native body after argument 1 has
already been interpreted; the registration declares no arity bounds and
no ArityError is produced. -/
theorem cpp_split_missing_second_argument (s : Str) :
    cpp_split [.str s] = .error (.typeMismatch 2) := rfl

/-- C3: reading an argument whose stored kind differs from the expected
string kind fails with the TypeMismatch bad-argument error and never
silently coerces, and pushing a native string value and reading it back
at its position with the matching expected kind returns an equal
value. -/
theorem checkstring_mismatch_and_roundtrip
    (args stack : List TaggedValue) (i : Nat) (v : TaggedValue) (s : Str) :
    (args[i - 1]? = some v → tagOf v ≠ Tag.str →
      checkstring args i = .error (.typeMismatch i)) ∧
    checkstring (pushValue stack (.str s)) (stack.length + 1) = .ok s := by
  constructor
  · intro hv ht
    cases v <;> simp_all [checkstring, tagOf]
  · simp [checkstring, pushValue]

/-- C3 witness: a table argument where a string is expected fails with
TypeMismatch at index 1, and a pushed string value reads back equal. -/
theorem checkstring_mismatch_and_roundtrip_witness :
    checkstring [.table []] 1 = .error (.typeMismatch 1) ∧
    checkstring (pushValue [] (.str "hi".toList)) 1 = .ok "hi".toList :=
  ⟨(checkstring_mismatch_and_roundtrip [.table []] [] 1
      (.table []) "hi".toList).1 (by decide) (by decide),
   (checkstring_mismatch_and_roundtrip [.table []] [] 1
      (.table []) "hi".toList).2⟩

/-- C5: every successful call to cpp_hello, cpp_version or the exported
split pushes exactly one result and returns result count 1, so the value
stack is left at exactly frame_base + 1. -/
theorem native_calls_push_one_result
    (argsH argsS : List TaggedValue) (cpl : Nat)
    (r1 r2 r3 : List TaggedValue × Nat) :
    (cpp_hello argsH = .ok r1 → r1.1.length = 1 ∧ r1.2 = 1) ∧
    (cpp_version cpl = .ok r2 → r2.1.length = 1 ∧ r2.2 = 1) ∧
    (cpp_split argsS = .ok r3 → r3.1.length = 1 ∧ r3.2 = 1) := by
  refine ⟨?_, ?_, ?_⟩
  · intro h
    cases hc : checkstring argsH 1 with
    | error e => simp [cpp_hello, hc] at h
    | ok name =>
      simp [cpp_hello, hc] at h
      rw [← h]
      exact ⟨rfl, rfl⟩
  · intro h
    simp [cpp_version] at h
    rw [← h]
    exact ⟨rfl, rfl⟩
  · intro h
    cases hc1 : checkstring argsS 1 with
    | error e => simp [cpp_split, hc1] at h
    | ok s =>
      cases hc2 : checkstring argsS 2 with
      | error e => simp [cpp_split, hc1, hc2] at h
      | ok delim =>
        by_cases hd : cAt delim 1 = nul
        · simp [cpp_split, hc1, hc2, hd] at h
          rw [← h]
          exact ⟨rfl, rfl⟩
        · simp [cpp_split, hc1, hc2, hd] at h

/-- C5 witness: concrete successful calls to the three functions, each
pushing exactly one result with result count 1. -/
theorem native_calls_push_one_result_witness :
    ([TaggedValue.str "Hello from C++23, x!".toList].length = 1
      ∧ (1 : Nat) = 1) ∧
    ([TaggedValue.str "Satell C++ Extensions v1.0 (C++202302)".toList].length
      = 1 ∧ (1 : Nat) = 1) ∧
    ([TaggedValue.table [['a'], ['b']]].length = 1 ∧ (1 : Nat) = 1) := by
  obtain ⟨h1, h2, h3⟩ := native_calls_push_one_result
    [.str "x".toList] [.str "a,b".toList, .str ",".toList] 202302
    ([.str "Hello from C++23, x!".toList], 1)
    ([.str "Satell C++ Extensions v1.0 (C++202302)".toList], 1)
    ([.table [['a'], ['b']]], 1)
  refine ⟨h1 (by decide), h2 (by decide), h3 ?_⟩
  rw [cpp_split_eval _ _ (by decide)]
  simp only [StringUtils.split_eq]
  decide

/-- C6: loading the module twice is idempotent: each invocation of
luaopen_satell_cpp yields a freshly built export table equal to
satell_cpplib with exactly the bindings cpp_hello, cpp_version and
split, the name list has no duplicates, and a load never modifies
previously returned tables. -/
theorem luaopen_idempotent_exports :
    (∀ registry, (loadModule registry).take registry.length = registry) ∧
    loadModule (loadModule []) = [luaopen_satell_cpp, luaopen_satell_cpp] ∧
    luaopen_satell_cpp = satell_cpplib ∧
    luaopen_satell_cpp.map Prod.fst =
      ["cpp_hello".toList, "cpp_version".toList, "split".toList] ∧
    (luaopen_satell_cpp.map Prod.fst).Nodup := by
  refine ⟨?_, rfl, by decide, by decide, by decide⟩
  intro registry
  simp [loadModule]

/-- C7 (code bug in src): when the std::string concatenation in
cpp_hello throws std::bad_alloc, the exception escapes the extern "C"
boundary uncaught, because the body has no try/catch; with allocation
succeeding the call is a normal return.  The claim — that every failure
is signaled only through luaL_error — is what the spec and the
repository's own documentation require, and cpp_hello violates it. -/
theorem cpp_hello_bad_alloc_escapes :
    cpp_hello_exc false [.str "x".toList] = .uncaughtCpp .badAlloc ∧
    cpp_hello_exc true [.str "x".toList] =
      .ok [.str "Hello from C++23, x!".toList] 1 := by decide

/-- C8 counterexample: the string "," ends with the delimiter ',' but
StringUtils::split(",", ',') is [""] while split of its prefix "" (the
string with the final delimiter removed) is [], so removing a trailing
delimiter does not always preserve the result. -/
theorem split_single_delimiter_counterexample :
    ([','] : Str).getLast? = some ',' ∧
    StringUtils.split [','] ',' = [[]] ∧
    StringUtils.split (([','] : Str).dropLast) ',' = [] ∧
    ([[]] : List Str) ≠ [] := by
  refine ⟨by decide, ?_, ?_, by decide⟩
  · rw [StringUtils.split_eq]; decide
  · rw [StringUtils.split_eq]; decide

/-- C8 (amended): StringUtils::split of the empty string is the empty
sequence, so the exported split returns a table of length 0 for empty
input; and a final trailing delimiter contributes no segment: removing
it preserves the result whenever the remaining prefix is nonempty and
does not itself end with the delimiter (split(",", ',') is [""], not [],
so these side conditions are necessary). -/
theorem split_drops_trailing_delimiter (t : Str) (c : Char)
    (h1 : t ≠ []) (h2 : t.getLast? ≠ some c) :
    StringUtils.split [] c = [] ∧
    cpp_split [.str [], .str [c]] = .ok ([.table []], 1) ∧
    StringUtils.split (t ++ [c]) c = StringUtils.split t c := by
  have hempty : StringUtils.split [] c = [] := by
    rw [StringUtils.split_eq]; rfl
  refine ⟨hempty, ?_, ?_⟩
  · rw [cpp_split_eval [] [c] (by simp [cAt])]
    simp [truncAtNul, StringUtils.split_eq, StringUtils.splitAux]
  · rw [StringUtils.split_eq, StringUtils.split_eq]
    exact StringUtils.splitAux_append c t h1 h2

/-- C8 witness: for t = "a" and c = ',' the side conditions hold and
split("a,") = split("a"), split("") = [], and the exported split on
empty input returns an empty table. -/
theorem split_drops_trailing_delimiter_witness :
    ("a".toList ≠ [] ∧ ("a".toList : Str).getLast? ≠ some ',') ∧
    (StringUtils.split [] ',' = [] ∧
     cpp_split [.str [], .str [',']] = .ok ([.table []], 1) ∧
     StringUtils.split ("a".toList ++ [',']) ',' =
       StringUtils.split "a".toList ',') :=
  ⟨⟨by decide, by decide⟩,
   split_drops_trailing_delimiter "a".toList ',' (by decide) (by decide)⟩

/-- C10: safe_concat returns a present value equal to the concatenation
of its arguments whenever the allocation succeeds, returns the absent
indicator exactly when the concatenation throws std::bad_alloc, and
never lets an exception escape. -/
theorem safe_concat_total (alloc : Bool) (a b : Str) :
    safe_concat true a b = .ok (some (a ++ b)) ∧
    safe_concat false a b = .ok none ∧
    ∀ e, safe_concat alloc a b ≠ .error e := by
  refine ⟨rfl, rfl, ?_⟩
  intro e
  cases alloc <;> simp [safe_concat, concatAlloc]

end Satell
